import Mathlib

set_option maxRecDepth 10000

/-!
Verification of the ApplyBot matching-and-caching subsystem.

This file gives a shallow embedding, in Lean 4, of the project-to-job
matching engine (`app/services/matching/TFIDF_matcher.py`) and the result
cache (`app/services/matching/cache_service.py`), together with theorems
settling the specification claims about them.

Modelling conventions:
* Python floats are modelled by exact rationals (`ℚ`); the constants
  0.4, 0.35, 0.25, 0.7, 0.3 are exact decimal literals in both worlds.
* Python `set` values are modelled as duplicate-free lists (`List.dedup`);
  set iteration order in CPython is unspecified, so any duplicate-free
  enumeration is a faithful model.  `s.intersection(t)` is modelled by
  filtering the first operand.
* Timestamps (`datetime.now()`) are modelled as an explicit integer clock
  passed to every stateful cache operation; `timedelta(seconds=ttl)` is
  integer addition.
* The TF-IDF cosine-similarity step calls into scikit-learn (an external
  library, not code of this repository); it is modelled as an explicit
  parameter `sim : Nat → ℚ` giving the content-similarity score of the
  i-th project, exactly as `match_projects` consumes the list returned by
  `_calculate_tfidf_similarity`.
* Redis is external; it is modelled as an optional backend holding a list
  of (key, value, expiry) entries plus a `failing` flag: when the flag is
  set every Redis call raises, which the embedding propagates to the
  nearest Python `except` handler exactly as the source does.
-/

namespace ApplyBot

/-- A user project record, as consumed by the matcher
(`app/database/models.py` via `base_matcher.py`).  Text fields that the
source guards with `or ""` / `or []` are total here. -/
structure Project where
  id : Nat
  title : String
  description : String
  category : String
  technologies : List String
  skills_demonstrated : List String
  highlights : List String
  deriving DecidableEq, Repr

/-- Job context for matching (`base_matcher.py`, dataclass `JobContext`). -/
structure JobContext where
  job_id : String
  title : String
  description : String
  company : String
  required_skills : List String
  preferred_skills : List String
  category : Option String
  location : Option String
  deriving DecidableEq, Repr

/-- Result of matching one project (`base_matcher.py`, dataclass
`MatchResult`).  The `similarity_breakdown` dict is flattened into its
three named entries; the `explanation` dict only repeats these values in
rounded presentation form and carries no information used by any claim,
so it is not modelled. -/
structure MatchResult where
  project : Project
  confidence_score : ℚ
  matching_keywords : List String
  content_similarity : ℚ
  keyword_relevance : ℚ
  technical_alignment : ℚ
  deriving DecidableEq, Repr

/-! ### Text normalisation (`TFIDF_matcher._extract_keywords`) -/

/-- The custom stop-word set (`_get_custom_stop_words`); the Python set
literal contains a few repeated words, which a set absorbs. -/
def stop_words : List String :=
  ["the", "and", "for", "are", "but", "not", "you", "all", "can", "had",
   "her", "was", "one", "our", "out", "day", "get", "has", "him", "how",
   "man", "new", "now", "old", "see", "two", "way", "who", "boy", "did",
   "its", "let", "put", "say", "she", "too", "use", "will", "about",
   "after", "again", "against", "also", "any", "because", "been",
   "before", "being", "between", "both", "each", "few", "from", "have",
   "here", "into", "more", "most", "only", "other", "some", "such",
   "than", "that", "their", "them", "these", "they", "this",
   "through", "very", "were", "what", "when", "where", "which", "while",
   "with", "would", "your"]

/-- `str.lower()` (ASCII model, applied characterwise; kernel-reducible
counterpart of `String.toLower`). -/
def strLower (s : String) : String :=
  String.mk (s.data.map Char.toLower)

/-- `str.startswith(p)` (kernel-reducible counterpart of
`String.isPrefixOf`). -/
def strStarts (p s : String) : Bool :=
  p.data.isPrefixOf s.data

/-- A regex word character for `\w` (ASCII model: letters, digits, underscore). -/
def isWordChar (c : Char) : Bool :=
  c.isAlphanum || c = '_'

/-- Scanner for `wordRuns`: `cur` is the current run of word characters,
held in reverse. -/
def wordRunsAux : List Char → List Char → List (List Char)
  | [], cur => if cur = [] then [] else [cur.reverse]
  | c :: cs, cur =>
    if isWordChar c then wordRunsAux cs (c :: cur)
    else if cur = [] then wordRunsAux cs [] else cur.reverse :: wordRunsAux cs []

/-- Maximal runs of word characters in a character list: the matches of
`\b\w+\b`.  (`re.findall(r'\b\w{3,}\b', text)` keeps the runs of length
at least 3; that length filter is applied by the caller below.) -/
def wordRuns (l : List Char) : List (List Char) :=
  wordRunsAux l []

/-- `str.isdigit()` on a token (tokens are nonempty). -/
def isAllDigits (w : List Char) : Bool := w.all Char.isDigit

/-- `TFIDFProjectMatcher._extract_keywords`: lowercase the text, take the
maximal word-character runs of length ≥ 3, drop stop words and purely
numeric tokens, and collect the survivors into a set (a duplicate-free
list here). -/
def extract_keywords (text : String) : List String :=
  let lowered := text.data.map Char.toLower
  let words := (wordRuns lowered).filter (fun w => decide (3 ≤ w.length))
  let kept := (words.map fun w => String.mk w).filter
    (fun w => !(stop_words.contains w) && decide (3 ≤ w.length) && !(isAllDigits w.data))
  kept.dedup

/-- Python `a.intersection(b)` on sets modelled as duplicate-free lists:
the elements of the first operand that also lie in the second. -/
def listInter (l₁ l₂ : List String) : List String :=
  l₁.filter (fun x => decide (x ∈ l₂))

/-- Set difference `a - b` on the same model. -/
def listDiff (l₁ l₂ : List String) : List String :=
  l₁.filter (fun x => decide (x ∉ l₂))

/-! ### Keyword-overlap scorer (`_calculate_keyword_matches`) -/

/-- Keywords of the job text `f"{title} {description}"`. -/
def job_keywords (job : JobContext) : List String :=
  extract_keywords (job.title ++ " " ++ job.description)

/-- Keywords of the project text `f"{title} {description} {' '.flatten(highlights)}"`. -/
def project_keywords (p : Project) : List String :=
  extract_keywords (p.title ++ " " ++ p.description ++ " " ++ String.intercalate " " p.highlights)

/-- Per-project outcome of the keyword scorer: the capped score and the
matched keyword list (`score` / `keywords` entries of the result dict). -/
structure KeywordMatch where
  score : ℚ
  keywords : List String
  deriving DecidableEq, Repr

/-- The keyword score before the final `min(score, 1.0)` cap:
`len(matching)/len(job_keywords)` when the job keyword set is nonempty,
else `0.0`. -/
def keywordRawScore (job : JobContext) (p : Project) : ℚ :=
  if job_keywords job = [] then 0
  else ((listInter (job_keywords job) (project_keywords p)).length : ℚ) /
    ((job_keywords job).length : ℚ)

/-- One iteration of `_calculate_keyword_matches` for one project. -/
def calcKeywordMatch (job : JobContext) (p : Project) : KeywordMatch :=
  { score := min (keywordRawScore job p) 1
    keywords := listInter (job_keywords job) (project_keywords p) }

/-! ### Technology-alignment scorer (`_calculate_technology_matches`) -/

/-- Lowercase a list of tags and collect into a set. -/
def lowerSet (l : List String) : List String :=
  (l.map strLower).dedup

/-- `required_techs = set(skill.lower() for skill in required_skills)`. -/
def required_techs (job : JobContext) : List String := lowerSet job.required_skills

/-- `preferred_techs`, analogously. -/
def preferred_techs (job : JobContext) : List String := lowerSet job.preferred_skills

/-- `all_job_techs = required_techs ∪ preferred_techs`. -/
def all_job_techs (job : JobContext) : List String :=
  (required_techs job ++ preferred_techs job).dedup

/-- The project technology set: lowercased `technologies` plus lowercased
`skills_demonstrated` (both `update`d into one set by the source). -/
def project_techs (p : Project) : List String :=
  lowerSet (p.technologies ++ p.skills_demonstrated)

/-- `required_score = len(matched_required)/len(required_techs) if required_techs else 0`. -/
def requiredOverlapRatio (job : JobContext) (p : Project) : ℚ :=
  if required_techs job = [] then 0
  else ((listInter (project_techs p) (required_techs job)).length : ℚ) /
    ((required_techs job).length : ℚ)

/-- `preferred_score`, analogously. -/
def preferredOverlapRatio (job : JobContext) (p : Project) : ℚ :=
  if preferred_techs job = [] then 0
  else ((listInter (project_techs p) (preferred_techs job)).length : ℚ) /
    ((preferred_techs job).length : ℚ)

/-- The technology score before the final `min(tech_score, 1.0)` cap:
`(required_score * 0.7) + (preferred_score * 0.3)`. -/
def techRawScore (job : JobContext) (p : Project) : ℚ :=
  requiredOverlapRatio job p * 0.7 + preferredOverlapRatio job p * 0.3

/-- Per-project outcome of the technology scorer. -/
structure TechMatch where
  score : ℚ
  technologies : List String
  missing_required : List String
  deriving DecidableEq, Repr

/-- One iteration of `_calculate_technology_matches` for one project. -/
def calcTechMatch (job : JobContext) (p : Project) : TechMatch :=
  { score := min (techRawScore job p) 1
    technologies := listInter (project_techs p) (all_job_techs job)
    missing_required :=
      listDiff (required_techs job) (listInter (project_techs p) (required_techs job)) }

/-! ### Match aggregation (`match_projects`) -/

/-- Builds the `MatchResult` for the `i`-th project: weighted confidence
`tfidf*0.4 + keyword*0.35 + tech*0.25`, and the `matching_keywords` list
`keyword_matches[i]['keywords'] + tech_matches[i]['technologies']`
(plain Python list concatenation). -/
def scoreResult (sim : Nat → ℚ) (job : JobContext) (i : Nat) (p : Project) : MatchResult :=
  let tfidf_score := sim i
  let km := calcKeywordMatch job p
  let tm := calcTechMatch job p
  { project := p
    confidence_score := tfidf_score * 0.4 + km.score * 0.35 + tm.score * 0.25
    matching_keywords := km.keywords ++ tm.technologies
    content_similarity := tfidf_score
    keyword_relevance := km.score
    technical_alignment := tm.score }

/-- The result list in input order (the `for i, project in enumerate(projects)` loop). -/
def scoreResults (sim : Nat → ℚ) (projects : List Project) (job : JobContext) :
    List MatchResult :=
  projects.enum.map (fun ip => scoreResult sim job ip.1 ip.2)

/-- Stable descending insertion used to model
`results.sort(key=lambda x: x.confidence_score, reverse=True)`: a new
element is placed after every already-placed element of greater-or-equal
confidence.  CPython's sort is stable, and a stable sort by one key is
uniquely determined, so this computes the same list. -/
def insertDesc (x : MatchResult) : List MatchResult → List MatchResult
  | [] => [x]
  | y :: ys =>
    if x.confidence_score ≤ y.confidence_score then y :: insertDesc x ys
    else x :: y :: ys

/-- Stable descending sort by confidence score (see `insertDesc`). -/
def sortDesc (l : List MatchResult) : List MatchResult :=
  l.foldl (fun acc x => insertDesc x acc) []

/-- `TFIDFProjectMatcher.match_projects`: empty input short-circuits to
`[]`; otherwise score every project, sort by confidence descending
(stable) and keep the first `max_results`. -/
def match_projects (sim : Nat → ℚ) (projects : List Project) (job : JobContext)
    (max_results : Nat) : List MatchResult :=
  if projects.isEmpty then []
  else (sortDesc (scoreResults sim projects job)).take max_results

/-! ### Result cache (`cache_service.MatchingCacheService`)

State is threaded explicitly; `now : ℤ` models `datetime.now()` in
seconds.  Redis values live on the Redis server with a native expiry set
by `setex`, modelled per entry; a set `failing` flag makes every Redis
call raise, and the embedding routes that raise to the `except` handler
of the calling method exactly where the source catches it. -/

/-- The serialisable per-result record built by `cache_results`
(project_id, project_title, confidence_score, matching_keywords,
similarity_breakdown, cached_at).  The `explanation` dict of rounded
presentation values is not modelled. -/
structure SerResult where
  project_id : Nat
  project_title : String
  confidence_score : ℚ
  matching_keywords : List String
  content_similarity : ℚ
  keyword_relevance : ℚ
  technical_alignment : ℚ
  cached_at : Int
  deriving DecidableEq, Repr

/-- Serialisation of one `MatchResult` at clock `now` (the
`datetime.now().isoformat()` stamp becomes the clock value). -/
def serializeResult (now : Int) (r : MatchResult) : SerResult :=
  { project_id := r.project.id
    project_title := r.project.title
    confidence_score := r.confidence_score
    matching_keywords := r.matching_keywords
    content_similarity := r.content_similarity
    keyword_relevance := r.keyword_relevance
    technical_alignment := r.technical_alignment
    cached_at := now }

/-- One Redis entry: key, stored value, absolute expiry set by `setex`. -/
structure REntry where
  key : String
  value : List SerResult
  expires_at : Int
  deriving DecidableEq, Repr

/-- The Redis backend: its keyspace, plus a flag under which every call
raises (connection failure). -/
structure RedisState where
  failing : Bool
  entries : List REntry
  deriving DecidableEq, Repr

/-- One fallback-store entry (`self.memory_cache[key]`): the serialised
data and the locally tracked `expires_at`. -/
structure MemEntry where
  data : List SerResult
  expires_at : Int
  deriving DecidableEq, Repr

/-- The service state: `default_ttl`, the optional Redis client, and the
in-memory fallback dict (association list keyed by cache key). -/
structure CacheState where
  default_ttl : Int
  redis : Option RedisState
  memory : List (String × MemEntry)
  deriving DecidableEq, Repr

/-- Association-list lookup for the fallback dict. -/
def memLookup (m : List (String × MemEntry)) (key : String) : Option MemEntry :=
  (m.find? (fun kv => kv.1 = key)).map (·.2)

/-- Dict assignment `m[key] = e` (replaces any entry under `key`; a new
key is appended, as with CPython dict insertion order). -/
def memSet (m : List (String × MemEntry)) (key : String) (e : MemEntry) :
    List (String × MemEntry) :=
  if (m.find? (fun kv => kv.1 = key)).isSome then
    m.map (fun kv => if kv.1 = key then (key, e) else kv)
  else m ++ [(key, e)]

/-- `_cleanup_memory_cache`: drop every entry with `now >= expires_at`. -/
def cleanupMemory (now : Int) (m : List (String × MemEntry)) :
    List (String × MemEntry) :=
  m.filter (fun kv => now < kv.2.expires_at)

/-- A Redis `GET` against a keyspace: the stored value if the key exists
and its server-side expiry has not passed.  (Only called when the
backend is not failing.) -/
def redisLookup (entries : List REntry) (now : Int) (key : String) :
    Option (List SerResult) :=
  match entries.find? (fun e => e.key = key) with
  | some e => if now < e.expires_at then some e.value else none
  | none => none

/-- A Redis `SETEX`: replaces the value and expiry under `key` (appending
a fresh key). -/
def redisSet (r : RedisState) (now : Int) (key : String) (ttl : Int)
    (v : List SerResult) : RedisState :=
  { r with entries :=
      if (r.entries.find? (fun e => e.key = key)).isSome then
        r.entries.map (fun e => if e.key = key then ⟨key, v, now + ttl⟩ else e)
      else r.entries ++ [⟨key, v, now + ttl⟩] }

/-- The memory-cache half of `get_cached_results` (the code after the
Redis attempt): a fresh fallback entry is a hit; an expired one is
deleted and reported as a miss. -/
def memoryGet (s : CacheState) (now : Int) (key : String) :
    Option (List SerResult) × CacheState :=
  match memLookup s.memory key with
  | some e =>
    if now < e.expires_at then (some e.data, s)
    else (none, { s with memory := s.memory.filter (fun kv => kv.1 ≠ key) })
  | none => (none, s)

/-- `MatchingCacheService.get_cached_results`.  The whole body sits in
one `try`: a raising Redis `GET` jumps to `except` and returns `None`
with the state untouched — the memory fallback is *not* consulted on a
Redis error, only on a Redis miss. -/
def get_cached_results (s : CacheState) (now : Int) (key : String) :
    Option (List SerResult) × CacheState :=
  match s.redis with
  | some r =>
    if r.failing then (none, s)
    else
      match redisLookup r.entries now key with
      | some v => (some v, s)
      | none => memoryGet s now key
  | none => memoryGet s now key

/-- `MatchingCacheService.cache_results`.  `ttl = ttl or self.default_ttl`
treats both `None` and `0` as "use the default" (Python falsiness).  The
whole body sits in one `try`: a raising Redis `SETEX` (backend failing,
or a non-positive expire time, which Redis rejects) jumps to `except`
and returns `False` — in that case the memory write never happens. -/
def cache_results (s : CacheState) (now : Int) (key : String)
    (results : List MatchResult) (ttlArg : Option Int) : Bool × CacheState :=
  let ttl : Int :=
    match ttlArg with
    | none => s.default_ttl
    | some t => if t = 0 then s.default_ttl else t
  let ser := results.map (serializeResult now)
  match s.redis with
  | some r =>
    if r.failing || ttl ≤ 0 then (false, s)
    else
      let r' := redisSet r now key ttl ser
      let mem' := cleanupMemory now (memSet s.memory key ⟨ser, now + ttl⟩)
      (true, { s with redis := some r', memory := mem' })
  | none =>
    let mem' := cleanupMemory now (memSet s.memory key ⟨ser, now + ttl⟩)
    (true, { s with memory := mem' })

/-! #### Redis glob matching (`stringmatchlen` from redis `util.c`)

`invalidate_user_cache` selects the Redis keys to delete with
`redis_client.keys(f"match:{user_id}:*")`, and Redis `KEYS` matches its
pattern with glob semantics (`*`, `?`, `[...]` classes with `^` negation
and `a-b` ranges, `\` escaping) — not with a literal string prefix.  The
matcher below mirrors the scan loop of Redis's `stringmatchlen`,
fuel-indexed so that it is structurally recursive and kernel-reducible;
the fuel `pat.length + str.length + 1` bounds the recursion depth, since
every step shortens the pattern or the string.  (Degenerate C edge cases
— an unterminated class consumes the rest of the pattern, a lone
trailing backslash matches itself literally — follow the C code; keys
and patterns here are always nonempty.) -/

/-- The characters special to Redis glob patterns. -/
def globSpecial (c : Char) : Bool :=
  c = '*' || c = '?' || c = '[' || c = '\\'

/-- Scan of a `[...]` class body (after the optional `^`): folds whether
`c` matched any member and returns the pattern rest after the closing
`]`, mirroring the class loop of `stringmatchlen` (escape pairs, `]`
terminator, `a-b` ranges with swapped bounds, plain members). -/
def classScan (c : Char) : List Char → Bool → Bool × List Char
  | [], m => (m, [])
  | '\\' :: d :: ps, m => classScan c ps (m || d = c)
  | ']' :: ps, m => (m, ps)
  | a :: '-' :: b :: ps, m =>
    let lo := if a.toNat ≤ b.toNat then a.toNat else b.toNat
    let hi := if a.toNat ≤ b.toNat then b.toNat else a.toNat
    classScan c ps (m || (lo ≤ c.toNat && c.toNat ≤ hi))
  | a :: ps, m => classScan c ps (m || a = c)

/-- One step of the `stringmatchlen` loop, parameterised by the
recursive call (used with one unit of fuel less): `*` tries every
string suffix, `?` consumes one character, `[...]` matches a class,
`\x` and plain characters match literally; a trailing run of `*`
matches the empty rest. -/
def globStep (rec : List Char → List Char → Bool) (pat str : List Char) : Bool :=
  match pat with
  | [] => str.isEmpty
  | a :: ps =>
    if a = '*' then
      match ps with
      | '*' :: ps' => rec ('*' :: ps') str
      | _ =>
        if ps = [] then true
        else
          rec ps str ||
            (match str with
             | [] => false
             | _ :: t => rec ('*' :: ps) t)
    else if a = '?' then
      match str with
      | [] => false
      | _ :: t => rec ps t
    else if a = '[' then
      match str with
      | [] => false
      | c :: t =>
        let neg := ps.head? = some '^'
        let body := if neg then ps.tail else ps
        let res := classScan c body false
        if (if neg then !res.1 else res.1) then rec res.2 t else false
    else if a = '\\' then
      match ps with
      | d :: ps' =>
        match str with
        | [] => false
        | c :: t => if d = c then rec ps' t else false
      | [] =>
        match str with
        | [] => false
        | c :: t => if a = c then rec ps t else false
    else
      match str with
      | [] => false
      | c :: t => if a = c then rec ps t else false

/-- The `stringmatchlen` loop, by fuel recursion over `globStep`. -/
def globLoop : Nat → List Char → List Char → Bool
  | 0, _, _ => false
  | f + 1, pat, str => globStep (globLoop f) pat str

/-- Redis glob matching of a whole pattern against a whole string. -/
def globMatch (pat str : List Char) : Bool :=
  globLoop (pat.length + str.length + 1) pat str

/-- Whether Redis `KEYS pattern` lists `key`. -/
def redisKeysMatch (pattern key : String) : Bool :=
  globMatch pattern.data key.data

/-- `MatchingCacheService.invalidate_user_cache`: delete every key
matching the glob pattern `match:{user_id}:*` from Redis (when present
and healthy; a failing backend raises, the `except` returns 0 with
nothing removed) and every key with the literal prefix `match:{user_id}:`
from the fallback dict (`str.startswith`); the returned count is the
number of Redis deletions plus the number of fallback deletions. -/
def invalidate_user_cache (s : CacheState) (user_id : String) : Int × CacheState :=
  let pre := "match:" ++ user_id ++ ":"
  let pattern := "match:" ++ user_id ++ ":*"
  match s.redis with
  | some r =>
    if r.failing then (0, s)
    else
      let rGone := r.entries.filter (fun e => redisKeysMatch pattern e.key)
      let rKeep := r.entries.filter (fun e => !(redisKeysMatch pattern e.key))
      let mGone := s.memory.filter (fun kv => strStarts pre kv.1)
      let mKeep := s.memory.filter (fun kv => !(strStarts pre kv.1))
      ((rGone.length : Int) + (mGone.length : Int),
        { s with redis := some { r with entries := rKeep }, memory := mKeep })
  | none =>
    let mGone := s.memory.filter (fun kv => strStarts pre kv.1)
    let mKeep := s.memory.filter (fun kv => !(strStarts pre kv.1))
    ((mGone.length : Int), { s with memory := mKeep })

/-! ### Concrete fixtures used by scenario conjuncts, witnesses and
counterexamples -/

/-- The spec's technology-alignment scenario job:
required [Python, PostgreSQL], preferred [Docker]. -/
def jobScenario : JobContext :=
  { job_id := "job-1", title := "Backend Engineer", description := "Build APIs",
    company := "Acme", required_skills := ["Python", "PostgreSQL"],
    preferred_skills := ["Docker"], category := none, location := none }

/-- The spec's scenario project: technologies [Python, FastAPI, PostgreSQL]. -/
def projectScenario : Project :=
  { id := 1, title := "Inventory API", description := "", category := "",
    technologies := ["Python", "FastAPI", "PostgreSQL"], skills_demonstrated := [],
    highlights := [] }

/-- A job with no required and no preferred skills and no text. -/
def jobNil : JobContext :=
  { job_id := "job-0", title := "", description := "", company := "",
    required_skills := [], preferred_skills := [], category := none, location := none }

/-- A project with every field empty. -/
def projectNil : Project :=
  { id := 0, title := "", description := "", category := "", technologies := [],
    skills_demonstrated := [], highlights := [] }

/-- A job in which the term "python" is both a job-text keyword and a
required skill. -/
def jobDup : JobContext :=
  { job_id := "job-2", title := "python", description := "python developer",
    company := "", required_skills := ["Python"], preferred_skills := [],
    category := none, location := none }

/-- A project in which the term "python" is both a project-text keyword
and a listed technology. -/
def projectDup : Project :=
  { id := 2, title := "python", description := "", category := "",
    technologies := ["Python"], skills_demonstrated := [], highlights := [] }

/-! ### Cache key generation (`generate_cache_key`)

`generate_cache_key` serialises a canonical dict of the job fields with
`json.dumps(..., sort_keys=True)`, hashes the UTF-8 bytes with MD5,
truncates the hex digest to 12 characters, and assembles
`match:{user_id}:{job_hash}:{algorithm_name}:{algorithm_version}`.
The JSON serialisation below reproduces `json.dumps` defaults
(`ensure_ascii=True`, separators `", "` and `": "`, keys in sorted
order: category, description, job_id, preferred_skills,
required_skills, title), and MD5 is implemented in full. -/

/-- UTF-8 encoding of one code point (`str.encode()`): code points above
0xFFFF also get their 4-byte form. -/
def utf8Bytes (c : Char) : List Nat :=
  let n := c.toNat
  if n < 128 then [n]
  else if n < 2048 then [192 + n / 64, 128 + n % 64]
  else if n < 65536 then [224 + n / 4096, 128 + n / 64 % 64, 128 + n % 64]
  else [240 + n / 262144, 128 + n / 4096 % 64, 128 + n / 64 % 64, 128 + n % 64]

/-- The UTF-8 byte sequence of a string. -/
def strBytes (s : String) : List Nat :=
  (s.data.map utf8Bytes).flatten

/-- Lower-case hexadecimal digit. -/
def hexDigit (n : Nat) : Char :=
  if n < 10 then Char.ofNat (48 + n) else Char.ofNat (87 + n)

/-- Four hex digits, for `\uXXXX` escapes. -/
def hex4 (n : Nat) : List Char :=
  [hexDigit (n / 4096 % 16), hexDigit (n / 256 % 16), hexDigit (n / 16 % 16),
   hexDigit (n % 16)]

/-- `json.dumps` escaping of one character (`ensure_ascii=True`): short
escapes for quote, backslash and the usual control characters, `\uXXXX`
for other control characters and for everything outside printable
ASCII, surrogate pairs above the BMP. -/
def jsonEscapeChar (c : Char) : List Char :=
  let n := c.toNat
  if c = '"' then ['\\', '"']
  else if c = '\\' then ['\\', '\\']
  else if c = '\n' then ['\\', 'n']
  else if c = '\t' then ['\\', 't']
  else if c = '\r' then ['\\', 'r']
  else if n = 8 then ['\\', 'b']
  else if n = 12 then ['\\', 'f']
  else if n < 32 ∨ n > 126 then
    if n ≤ 65535 then '\\' :: 'u' :: hex4 n
    else
      ('\\' :: 'u' :: hex4 (55296 + (n - 65536) / 1024)) ++
        ('\\' :: 'u' :: hex4 (56320 + (n - 65536) % 1024))
  else [c]

/-- A JSON string literal as `json.dumps` renders it. -/
def jsonString (s : String) : String :=
  String.mk ('"' :: ((s.data.map jsonEscapeChar).flatten ++ ['"']))

/-- A JSON list of strings with the default `", "` separator. -/
def jsonStrList (l : List String) : String :=
  "[" ++ String.intercalate ", " (l.map jsonString) ++ "]"

/-- `null` for Python `None`, else the JSON string. -/
def jsonOptString : Option String → String
  | none => "null"
  | some s => jsonString s

/-- Strict code-point lexicographic order on character lists (Python
string `<`). -/
def lexLt : List Char → List Char → Bool
  | [], [] => false
  | [], _ :: _ => true
  | _ :: _, [] => false
  | a :: as, b :: bs =>
    if a.toNat < b.toNat then true
    else if b.toNat < a.toNat then false
    else lexLt as bs

/-- Python `a <= b` on strings. -/
def pyStrLe (a b : String) : Bool := !(lexLt b.data a.data)

/-- Stable ascending insertion for `sorted()`. -/
def insertStr (x : String) : List String → List String
  | [] => [x]
  | y :: ys => if pyStrLe y x then y :: insertStr x ys else x :: y :: ys

/-- Python `sorted()` on a list of strings (stable, code-point order). -/
def pySorted (l : List String) : List String :=
  l.foldl (fun acc x => insertStr x acc) []

/-- The canonical serialisation `json.dumps(job_data, sort_keys=True)`
of the `job_data` dict built by `generate_cache_key` (required and
preferred skills sorted, keys in alphabetical order). -/
def job_json (job : JobContext) : String :=
  "\x7b\"category\": " ++ jsonOptString job.category ++
  ", \"description\": " ++ jsonString job.description ++
  ", \"job_id\": " ++ jsonString job.job_id ++
  ", \"preferred_skills\": " ++ jsonStrList (pySorted job.preferred_skills) ++
  ", \"required_skills\": " ++ jsonStrList (pySorted job.required_skills) ++
  ", \"title\": " ++ jsonString job.title ++ "\x7d"

/-! #### MD5 (RFC 1321), over byte lists, 32-bit words as `Nat % 2^32` -/

/-- Truncate to a 32-bit word. -/
def w32 (n : Nat) : Nat := n % 4294967296

/-- 32-bit left rotation. -/
def rotl32 (x s : Nat) : Nat := w32 (x <<< s ||| x >>> (32 - s))

/-- The 64 MD5 sine-derived constants. -/
def md5K : List Nat :=
  [3614090360, 3905402710, 606105819, 3250441966, 4118548399, 1200080426, 2821735955, 4249261313,
   1770035416, 2336552879, 4294925233, 2304563134, 1804603682, 4254626195, 2792965006, 1236535329,
   4129170786, 3225465664, 643717713, 3921069994, 3593408605, 38016083, 3634488961, 3889429448,
   568446438, 3275163606, 4107603335, 1163531501, 2850285829, 4243563512, 1735328473, 2368359562,
   4294588738, 2272392833, 1839030562, 4259657740, 2763975236, 1272893353, 4139469664, 3200236656,
   681279174, 3936430074, 3572445317, 76029189, 3654602809, 3873151461, 530742520, 3299628645,
   4096336452, 1126891415, 2878612391, 4237533241, 1700485571, 2399980690, 4293915773, 2240044497,
   1873313359, 4264355552, 2734768916, 1309151649, 4149444226, 3174756917, 718787259, 3951481745]

/-- The 64 MD5 per-round shift amounts. -/
def md5S : List Nat :=
  [7, 12, 17, 22, 7, 12, 17, 22, 7, 12, 17, 22, 7, 12, 17, 22,
   5, 9, 14, 20, 5, 9, 14, 20, 5, 9, 14, 20, 5, 9, 14, 20,
   4, 11, 16, 23, 4, 11, 16, 23, 4, 11, 16, 23, 4, 11, 16, 23,
   6, 10, 15, 21, 6, 10, 15, 21, 6, 10, 15, 21, 6, 10, 15, 21]

/-- Round function and message index for round `i` (bitwise NOT of a
32-bit word `x` is `4294967295 - x`). -/
def md5F (i b c d : Nat) : Nat × Nat :=
  if i < 16 then ((b &&& c) ||| ((4294967295 - b) &&& d), i)
  else if i < 32 then ((d &&& b) ||| ((4294967295 - d) &&& c), (5 * i + 1) % 16)
  else if i < 48 then (b ^^^ c ^^^ d, (3 * i + 5) % 16)
  else (c ^^^ (b ||| (4294967295 - d)), (7 * i) % 16)

/-- A little-endian 32-bit word from four bytes. -/
def bytesToW32 (b0 b1 b2 b3 : Nat) : Nat :=
  b0 + 256 * b1 + 65536 * b2 + 16777216 * b3

/-- The sixteen message words of one 64-byte chunk. -/
def chunkWords (chunk : List Nat) : List Nat :=
  (List.range 16).map (fun j =>
    bytesToW32 (chunk.getD (4 * j) 0) (chunk.getD (4 * j + 1) 0)
      (chunk.getD (4 * j + 2) 0) (chunk.getD (4 * j + 3) 0))

/-- Running MD5 state. -/
structure MD5State where
  a : Nat
  b : Nat
  c : Nat
  d : Nat
  deriving DecidableEq, Repr

/-- One MD5 round. -/
def md5Round (M : List Nat) (st : MD5State) (i : Nat) : MD5State :=
  let fg := md5F i st.b st.c st.d
  let f := w32 (fg.1 + st.a + md5K.getD i 0 + M.getD fg.2 0)
  { a := st.d, b := w32 (st.b + rotl32 f (md5S.getD i 0)), c := st.b, d := st.c }

/-- Process one 64-byte chunk. -/
def md5Block (st : MD5State) (chunk : List Nat) : MD5State :=
  let M := chunkWords chunk
  let r := (List.range 64).foldl (md5Round M) st
  { a := w32 (st.a + r.a), b := w32 (st.b + r.b),
    c := w32 (st.c + r.c), d := w32 (st.d + r.d) }

/-- Eight little-endian bytes of the 64-bit message bit length. -/
def le8 (n : Nat) : List Nat :=
  (List.range 8).map (fun i => n / 256 ^ i % 256)

/-- Four little-endian bytes of a 32-bit word. -/
def le4 (n : Nat) : List Nat :=
  [n % 256, n / 256 % 256, n / 65536 % 256, n / 16777216 % 256]

/-- MD5 padding: 0x80, zeros to 56 mod 64, then the bit length. -/
def md5Pad (msg : List Nat) : List Nat :=
  msg ++ [128] ++ List.replicate ((56 + 64 - (msg.length + 1) % 64) % 64) 0 ++
    le8 (8 * msg.length % 18446744073709551616)

/-- The 16-byte MD5 digest of a byte list. -/
def md5Bytes (msg : List Nat) : List Nat :=
  let padded := md5Pad msg
  let blocks := (List.range (padded.length / 64)).map
    (fun i => (padded.drop (64 * i)).take 64)
  let st := blocks.foldl md5Block ⟨1732584193, 4023233417, 2562383102, 271733878⟩
  le4 st.a ++ le4 st.b ++ le4 st.c ++ le4 st.d

/-- Two lower-case hex digits of a byte. -/
def byteHex (b : Nat) : List Char := [hexDigit (b / 16), hexDigit (b % 16)]

/-- `hashlib.md5(...).hexdigest()`. -/
def md5Hex (msg : List Nat) : String :=
  String.mk ((md5Bytes msg).map byteHex).flatten

/-- `hashlib.md5(json.dumps(job_data, sort_keys=True).encode()).hexdigest()[:12]`. -/
def job_hash (job : JobContext) : String :=
  String.mk ((md5Hex (strBytes (job_json job))).data.take 12)

/-- `MatchingCacheService.generate_cache_key`. -/
def generate_cache_key (user_id : String) (job : JobContext)
    (algorithm_name : String) (algorithm_version : String) : String :=
  "match:" ++ user_id ++ ":" ++ job_hash job ++ ":" ++ algorithm_name ++ ":" ++
    algorithm_version

/-- A second job, differing from `jobScenario` only in its description. -/
def jobScenario2 : JobContext :=
  { jobScenario with description := "Build APIs v2" }

/-! ### Cache-state observers and fixtures -/

/-- The primary backend is present and raises on every call. -/
def redisFailing (s : CacheState) : Bool :=
  match s.redis with
  | some r => r.failing
  | none => false

/-- The primary backend is absent or healthy (no call raises). -/
def redisOk (s : CacheState) : Bool := !(redisFailing s)

/-- The keyspace of the primary backend ([] when absent). -/
def redisEntries (s : CacheState) : List REntry :=
  match s.redis with
  | some r => r.entries
  | none => []

/-- A trivial serialised result record. -/
def serNil : SerResult :=
  { project_id := 0, project_title := "", confidence_score := 0,
    matching_keywords := [], content_similarity := 0, keyword_relevance := 0,
    technical_alignment := 0, cached_at := 0 }

/-- A trivial match result. -/
def resultNil : MatchResult :=
  { project := projectNil, confidence_score := 0, matching_keywords := [],
    content_similarity := 0, keyword_relevance := 0, technical_alignment := 0 }

/-- A cache state whose Redis backend raises on every call while the
fallback store holds a fresh entry under key "k" (expires at 10). -/
def failingState : CacheState :=
  { default_ttl := 3600, redis := some { failing := true, entries := [] },
    memory := [("k", { data := [serNil], expires_at := 10 })] }

/-- A memory-only cache state with the default TTL of one hour. -/
def memOnlyState : CacheState :=
  { default_ttl := 3600, redis := none, memory := [] }

/-- A cache state holding entries for users u1 and u2 in Redis and an
entry for u1 plus an unrelated key in the fallback store. -/
def invState : CacheState :=
  { default_ttl := 3600,
    redis := some
      { failing := false,
        entries := [⟨"match:u1:aaa:alg:1", [serNil], 100⟩,
                    ⟨"match:u2:bbb:alg:1", [serNil], 100⟩] },
    memory := [("match:u1:aaa:alg:1", ⟨[serNil], 100⟩),
               ("other", ⟨[serNil], 100⟩)] }

end ApplyBot

namespace ApplyBot

/-! ## Theorems -/

/-! ### Score-range helper lemmas -/

theorem listInter_subset_left (a b : List String) : listInter a b ⊆ a :=
  List.filter_subset' _

theorem listInter_subset_right (a b : List String) : listInter a b ⊆ b := by
  intro x hx
  have := List.of_mem_filter hx
  exact of_decide_eq_true this

theorem length_listInter_le_left (a b : List String) :
    (listInter a b).length ≤ a.length :=
  List.length_filter_le _ _

theorem length_listInter_le_right (a b : List String) (h : a.Nodup) :
    (listInter a b).length ≤ b.length :=
  (List.subperm_of_subset (h.filter _) (listInter_subset_right a b)).length_le

theorem lowerSet_nodup (l : List String) : (lowerSet l).Nodup :=
  List.nodup_dedup _

theorem keywordRawScore_nonneg (j : JobContext) (p : Project) :
    0 ≤ keywordRawScore j p := by
  unfold keywordRawScore
  split
  · exact le_refl 0
  · positivity

theorem keywordRawScore_le_one (j : JobContext) (p : Project) :
    keywordRawScore j p ≤ 1 := by
  unfold keywordRawScore
  split
  · exact zero_le_one
  · rename_i h
    rw [div_le_one (by exact_mod_cast List.length_pos.mpr h)]
    exact_mod_cast length_listInter_le_left _ _

theorem requiredOverlapRatio_nonneg (j : JobContext) (p : Project) :
    0 ≤ requiredOverlapRatio j p := by
  unfold requiredOverlapRatio
  split
  · exact le_refl 0
  · positivity

theorem requiredOverlapRatio_le_one (j : JobContext) (p : Project) :
    requiredOverlapRatio j p ≤ 1 := by
  unfold requiredOverlapRatio
  split
  · exact zero_le_one
  · rename_i h
    rw [div_le_one (by exact_mod_cast List.length_pos.mpr h)]
    exact_mod_cast length_listInter_le_right _ _ (List.nodup_dedup _)

theorem preferredOverlapRatio_nonneg (j : JobContext) (p : Project) :
    0 ≤ preferredOverlapRatio j p := by
  unfold preferredOverlapRatio
  split
  · exact le_refl 0
  · positivity

theorem preferredOverlapRatio_le_one (j : JobContext) (p : Project) :
    preferredOverlapRatio j p ≤ 1 := by
  unfold preferredOverlapRatio
  split
  · exact zero_le_one
  · rename_i h
    rw [div_le_one (by exact_mod_cast List.length_pos.mpr h)]
    exact_mod_cast length_listInter_le_right _ _ (List.nodup_dedup _)

theorem techRawScore_nonneg (j : JobContext) (p : Project) : 0 ≤ techRawScore j p := by
  unfold techRawScore
  nlinarith [requiredOverlapRatio_nonneg j p, preferredOverlapRatio_nonneg j p]

theorem techRawScore_le_one (j : JobContext) (p : Project) : techRawScore j p ≤ 1 := by
  unfold techRawScore
  nlinarith [requiredOverlapRatio_le_one j p, preferredOverlapRatio_le_one j p,
    requiredOverlapRatio_nonneg j p, preferredOverlapRatio_nonneg j p]

theorem calcKeywordMatch_score_eq (j : JobContext) (p : Project) :
    (calcKeywordMatch j p).score = keywordRawScore j p :=
  min_eq_left (keywordRawScore_le_one j p)

theorem calcTechMatch_score_eq (j : JobContext) (p : Project) :
    (calcTechMatch j p).score = techRawScore j p :=
  min_eq_left (techRawScore_le_one j p)

theorem calcKeywordMatch_score_mem_unit (j : JobContext) (p : Project) :
    0 ≤ (calcKeywordMatch j p).score ∧ (calcKeywordMatch j p).score ≤ 1 := by
  rw [calcKeywordMatch_score_eq]
  exact ⟨keywordRawScore_nonneg j p, keywordRawScore_le_one j p⟩

theorem calcTechMatch_score_mem_unit (j : JobContext) (p : Project) :
    0 ≤ (calcTechMatch j p).score ∧ (calcTechMatch j p).score ≤ 1 := by
  rw [calcTechMatch_score_eq]
  exact ⟨techRawScore_nonneg j p, techRawScore_le_one j p⟩

/-! ### Sorting lemmas -/

theorem insertDesc_perm (x : MatchResult) (l : List MatchResult) :
    List.Perm (insertDesc x l) (x :: l) := by
  induction l with
  | nil => simp [insertDesc]
  | cons y ys ih =>
    unfold insertDesc
    split
    · exact (ih.cons y).trans (List.Perm.swap x y ys)
    · exact List.Perm.refl _

theorem foldl_insertDesc_perm (l : List MatchResult) :
    ∀ acc, List.Perm (l.foldl (fun acc x => insertDesc x acc) acc) (acc ++ l) := by
  induction l with
  | nil => intro acc; simp
  | cons x xs ih =>
    intro acc
    simp only [List.foldl_cons]
    refine (ih (insertDesc x acc)).trans ?_
    refine (((insertDesc_perm x acc).append_right xs)).trans ?_
    exact List.perm_middle.symm

theorem sortDesc_perm (l : List MatchResult) : List.Perm (sortDesc l) l := by
  simpa using foldl_insertDesc_perm l []

theorem pairwise_insertDesc (x : MatchResult) (l : List MatchResult)
    (h : l.Pairwise (fun a b => b.confidence_score ≤ a.confidence_score)) :
    (insertDesc x l).Pairwise (fun a b => b.confidence_score ≤ a.confidence_score) := by
  induction l with
  | nil => simp [insertDesc]
  | cons y ys ih =>
    rw [List.pairwise_cons] at h
    obtain ⟨hy, hys⟩ := h
    unfold insertDesc
    split
    · rename_i hle
      rw [List.pairwise_cons]
      refine ⟨?_, ih hys⟩
      intro z hz
      rcases List.mem_cons.mp ((insertDesc_perm x ys).mem_iff.mp hz) with rfl | hzy
      · exact hle
      · exact hy z hzy
    · rename_i hgt
      push_neg at hgt
      rw [List.pairwise_cons]
      refine ⟨?_, List.pairwise_cons.mpr ⟨hy, hys⟩⟩
      intro z hz
      rcases List.mem_cons.mp hz with rfl | hzy
      · exact le_of_lt hgt
      · exact le_trans (hy z hzy) (le_of_lt hgt)

theorem pairwise_foldl_insertDesc (l : List MatchResult) :
    ∀ acc, acc.Pairwise (fun a b => b.confidence_score ≤ a.confidence_score) →
      (l.foldl (fun acc x => insertDesc x acc) acc).Pairwise
        (fun a b => b.confidence_score ≤ a.confidence_score) := by
  induction l with
  | nil => intro acc h; simpa using h
  | cons x xs ih => intro acc h; exact ih _ (pairwise_insertDesc x acc h)

theorem sortDesc_pairwise (l : List MatchResult) :
    (sortDesc l).Pairwise (fun a b => b.confidence_score ≤ a.confidence_score) :=
  pairwise_foldl_insertDesc l [] List.Pairwise.nil

theorem filter_insertDesc (x : MatchResult) (l : List MatchResult) (q : ℚ)
    (h : l.Pairwise (fun a b => b.confidence_score ≤ a.confidence_score)) :
    (insertDesc x l).filter (fun r => decide (r.confidence_score = q)) =
      if x.confidence_score = q
      then l.filter (fun r => decide (r.confidence_score = q)) ++ [x]
      else l.filter (fun r => decide (r.confidence_score = q)) := by
  induction l with
  | nil =>
    unfold insertDesc
    by_cases hx : x.confidence_score = q <;> simp [hx, List.filter]
  | cons y ys ih =>
    rw [List.pairwise_cons] at h
    obtain ⟨hy, hys⟩ := h
    unfold insertDesc
    split
    · rename_i hle
      rw [List.filter_cons, ih hys]
      by_cases hx : x.confidence_score = q <;> by_cases hyq : y.confidence_score = q <;>
        simp [hx, hyq, List.filter_cons]
    · rename_i hgt
      push_neg at hgt
      by_cases hx : x.confidence_score = q
      · have hnil : (y :: ys).filter (fun r => decide (r.confidence_score = q)) = [] := by
          rw [List.filter_eq_nil_iff]
          intro z hz
          rcases List.mem_cons.mp hz with rfl | hzy
          · simp only [decide_eq_true_eq]
            intro hzq
            exact absurd hzq (by rw [← hx] at *; exact ne_of_lt hgt)
          · simp only [decide_eq_true_eq]
            intro hzq
            have : z.confidence_score ≤ y.confidence_score := hy z hzy
            rw [hzq, ← hx] at this
            exact absurd (lt_of_lt_of_le hgt this) (lt_irrefl _)
        rw [List.filter_cons, hnil]
        simp [hx]
      · rw [List.filter_cons]
        simp [hx]

theorem filter_foldl_insertDesc (q : ℚ) (l : List MatchResult) :
    ∀ acc, acc.Pairwise (fun a b => b.confidence_score ≤ a.confidence_score) →
      ((l.foldl (fun acc x => insertDesc x acc) acc).filter
          (fun r => decide (r.confidence_score = q))) =
        acc.filter (fun r => decide (r.confidence_score = q)) ++
          l.filter (fun r => decide (r.confidence_score = q)) := by
  induction l with
  | nil => intro acc _; simp
  | cons x xs ih =>
    intro acc h
    simp only [List.foldl_cons]
    rw [ih _ (pairwise_insertDesc x acc h), filter_insertDesc x acc q h, List.filter_cons]
    by_cases hx : x.confidence_score = q <;> simp [hx]

theorem sortDesc_filter (q : ℚ) (l : List MatchResult) :
    (sortDesc l).filter (fun r => decide (r.confidence_score = q)) =
      l.filter (fun r => decide (r.confidence_score = q)) := by
  simpa using filter_foldl_insertDesc q l [] List.Pairwise.nil

theorem mem_match_projects (sim : Nat → ℚ) (P : List Project) (J : JobContext)
    (n : Nat) (r : MatchResult) (hr : r ∈ match_projects sim P J n) :
    r ∈ scoreResults sim P J := by
  unfold match_projects at hr
  split at hr
  · simp at hr
  · exact (sortDesc_perm _).subset ((List.take_sublist _ _).subset hr)

/-! ### C6: descending order with stable ties -/

/-- C6: the list returned by `match_projects` is sorted by confidence
score in non-increasing order, and for every score value the results
carrying that score appear in the same relative order as in the scored
input list (which is in input project order) — stable tie-breaking. -/
theorem C6_sorted_stable (sim : Nat → ℚ) (P : List Project) (J : JobContext) (n : Nat) :
    (match_projects sim P J n).Pairwise
        (fun a b => b.confidence_score ≤ a.confidence_score)
    ∧ ∀ q : ℚ,
        ((match_projects sim P J n).filter
            (fun r => decide (r.confidence_score = q))).Sublist
          ((scoreResults sim P J).filter (fun r => decide (r.confidence_score = q))) := by
  constructor
  · unfold match_projects
    split
    · exact List.Pairwise.nil
    · exact (sortDesc_pairwise _).sublist (List.take_sublist _ _)
  · intro q
    unfold match_projects
    split
    · simp
    · rw [← sortDesc_filter q (scoreResults sim P J)]
      exact (List.take_sublist _ _).filter _

/-! ### C7: result count bound and empty input -/

/-- C7: `match_projects` returns at most `min n |P|` results, and the
empty project list yields `[]` rather than an error. -/
theorem C7_result_bound (sim : Nat → ℚ) (P : List Project) (J : JobContext) (n : Nat) :
    match_projects sim [] J n = []
    ∧ (match_projects sim P J n).length ≤ min n P.length := by
  refine ⟨rfl, ?_⟩
  unfold match_projects
  split
  · exact Nat.zero_le _
  · rw [List.length_take, (sortDesc_perm _).length_eq]
    unfold scoreResults
    rw [List.length_map, List.enum_length]

/-! ### C1: the weighted confidence combination -/

/-- C1: every result returned by `match_projects` has confidence score
exactly `0.4 * content_similarity + 0.35 * keyword_overlap +
0.25 * technology_alignment`; the three weights sum to exactly 1; and,
provided the content-similarity scores (cosine similarities computed by
the external TF-IDF library) lie in [0,1], every returned confidence
score lies in [0,1]. -/
theorem C1_confidence (sim : Nat → ℚ) (P : List Project) (J : JobContext) (n : Nat)
    (r : MatchResult) (hsim : ∀ i, 0 ≤ sim i ∧ sim i ≤ 1)
    (hr : r ∈ match_projects sim P J n) :
    (0.4 + 0.35 + 0.25 : ℚ) = 1
    ∧ r.confidence_score =
        0.4 * r.content_similarity + 0.35 * r.keyword_relevance +
          0.25 * r.technical_alignment
    ∧ 0 ≤ r.confidence_score ∧ r.confidence_score ≤ 1 := by
  refine ⟨by norm_num, ?_⟩
  obtain ⟨ip, hip, rfl⟩ := List.mem_map.mp (mem_match_projects sim P J n r hr)
  obtain ⟨h0, h1⟩ := hsim ip.1
  obtain ⟨hk0, hk1⟩ := calcKeywordMatch_score_mem_unit J ip.2
  obtain ⟨ht0, ht1⟩ := calcTechMatch_score_mem_unit J ip.2
  refine ⟨?_, ?_, ?_⟩
  · simp only [scoreResult]
    ring
  · simp only [scoreResult]
    nlinarith
  · simp only [scoreResult]
    nlinarith

/-- Witness for C1 at a concrete input: the scenario project matched
against the scenario job with all content similarities 0. -/
theorem C1_confidence_witness :
    (0.4 + 0.35 + 0.25 : ℚ) = 1
    ∧ (scoreResult (fun _ => 0) jobScenario 0 projectScenario).confidence_score =
        0.4 * (scoreResult (fun _ => 0) jobScenario 0 projectScenario).content_similarity +
          0.35 * (scoreResult (fun _ => 0) jobScenario 0 projectScenario).keyword_relevance +
          0.25 * (scoreResult (fun _ => 0) jobScenario 0 projectScenario).technical_alignment
    ∧ 0 ≤ (scoreResult (fun _ => 0) jobScenario 0 projectScenario).confidence_score
    ∧ (scoreResult (fun _ => 0) jobScenario 0 projectScenario).confidence_score ≤ 1 :=
  C1_confidence (fun _ => 0) [projectScenario] jobScenario 5 _
    (fun _ => ⟨le_refl 0, zero_le_one⟩) (List.mem_singleton.mpr rfl)

/-! ### C5: the technology-alignment formula -/

/-- C5: the technology-alignment score is
`0.7 * required_overlap_ratio + 0.3 * preferred_overlap_ratio`, where
each ratio is `|project-tech-set ∩ skills| / |skills|` over lowercased
sets (the project tech set being `technologies` plus
`skills_demonstrated`) and is 0 when its skill set is empty; a job with
no required and no preferred skills scores 0 for every project, and the
spec's scenario evaluates to exactly 0.7. -/
theorem C5_technology_alignment (J : JobContext) (p : Project) :
    (calcTechMatch J p).score =
        0.7 * requiredOverlapRatio J p + 0.3 * preferredOverlapRatio J p
    ∧ (J.required_skills = [] → J.preferred_skills = [] →
        (calcTechMatch J p).score = 0)
    ∧ (calcTechMatch jobScenario projectScenario).score = 0.7 := by
  refine ⟨?_, ?_, ?_⟩
  · rw [calcTechMatch_score_eq]
    unfold techRawScore
    ring
  · intro hr hp
    rw [calcTechMatch_score_eq]
    unfold techRawScore requiredOverlapRatio preferredOverlapRatio
      required_techs preferred_techs
    rw [hr, hp]
    norm_num [lowerSet]
  · have h3 : listInter (project_techs projectScenario) (required_techs jobScenario) =
        ["python", "postgresql"] := by decide
    have h4 : listInter (project_techs projectScenario) (preferred_techs jobScenario) =
        [] := by decide
    have h1 : required_techs jobScenario = ["python", "postgresql"] := by decide
    have h2 : preferred_techs jobScenario = ["docker"] := by decide
    rw [calcTechMatch_score_eq]
    unfold techRawScore requiredOverlapRatio preferredOverlapRatio
    rw [h3, h4, h1, h2]
    norm_num
    simp

/-- Witness for C5's conditional conjunct: a job with no skills at all
scores 0, and the scenario scores 0.7. -/
theorem C5_technology_alignment_witness :
    (calcTechMatch jobNil projectScenario).score = 0
    ∧ (calcTechMatch jobScenario projectScenario).score = 0.7 :=
  ⟨(C5_technology_alignment jobNil projectScenario).2.1 rfl rfl,
   (C5_technology_alignment jobNil projectScenario).2.2⟩

/-! ### C10: both scorers are already within [0,1] before the clamp -/

/-- C10: the matched keyword set is a subset of the job keyword set, so
the keyword score is already in [0,1] before `min(·, 1.0)`; the raw
technology score is the convex combination `0.7*r + 0.3*p` of two ratios
in [0,1], so it is also in [0,1] before the clamp; both clamps are
identities and both scorers return values in [0,1]. -/
theorem C10_clamp_identity (J : JobContext) (p : Project) :
    (calcKeywordMatch J p).keywords ⊆ job_keywords J
    ∧ 0 ≤ keywordRawScore J p ∧ keywordRawScore J p ≤ 1
    ∧ min (keywordRawScore J p) 1 = keywordRawScore J p
    ∧ (calcKeywordMatch J p).score = keywordRawScore J p
    ∧ techRawScore J p =
        0.7 * requiredOverlapRatio J p + 0.3 * preferredOverlapRatio J p
    ∧ 0 ≤ requiredOverlapRatio J p ∧ requiredOverlapRatio J p ≤ 1
    ∧ 0 ≤ preferredOverlapRatio J p ∧ preferredOverlapRatio J p ≤ 1
    ∧ min (techRawScore J p) 1 = techRawScore J p
    ∧ (calcTechMatch J p).score = techRawScore J p
    ∧ 0 ≤ (calcKeywordMatch J p).score ∧ (calcKeywordMatch J p).score ≤ 1
    ∧ 0 ≤ (calcTechMatch J p).score ∧ (calcTechMatch J p).score ≤ 1 :=
  ⟨listInter_subset_left _ _, keywordRawScore_nonneg J p, keywordRawScore_le_one J p,
    min_eq_left (keywordRawScore_le_one J p), calcKeywordMatch_score_eq J p,
    by unfold techRawScore; ring,
    requiredOverlapRatio_nonneg J p, requiredOverlapRatio_le_one J p,
    preferredOverlapRatio_nonneg J p, preferredOverlapRatio_le_one J p,
    min_eq_left (techRawScore_le_one J p), calcTechMatch_score_eq J p,
    (calcKeywordMatch_score_mem_unit J p).1, (calcKeywordMatch_score_mem_unit J p).2,
    (calcTechMatch_score_mem_unit J p).1, (calcTechMatch_score_mem_unit J p).2⟩

/-! ### C9: the matching-keywords list is a concatenation, not a
deduplicated union -/

/-- C9 counterexample: a term ("python") that is both a matched generic
keyword and a matched listed technology occurs twice in the
`matching_keywords` of the returned result — the source concatenates the
two lists without removing duplicates. -/
theorem C9_cex :
    ((match_projects (fun _ => 0) [projectDup] jobDup 5).map
        (fun r => r.matching_keywords)) = [["python", "python"]] := by decide

/-- C9 (amended): the `matching_keywords` list attached to each result is
the plain concatenation of that project's matched keywords and its
matched technologies; each half is individually duplicate-free (both are
Python sets), but a term present in both halves occurs twice. -/
theorem C9_matching_keywords_concat (sim : Nat → ℚ) (P : List Project) (J : JobContext)
    (n : Nat) (r : MatchResult) (hr : r ∈ match_projects sim P J n) :
    r.matching_keywords =
        (calcKeywordMatch J r.project).keywords ++
          (calcTechMatch J r.project).technologies
    ∧ (calcKeywordMatch J r.project).keywords.Nodup
    ∧ (calcTechMatch J r.project).technologies.Nodup := by
  obtain ⟨ip, hip, rfl⟩ := List.mem_map.mp (mem_match_projects sim P J n r hr)
  exact ⟨rfl, (List.nodup_dedup _).filter _, (List.nodup_dedup _).filter _⟩

/-- Witness for C9's amended statement at the duplicate-producing input. -/
theorem C9_matching_keywords_concat_witness :
    (scoreResult (fun _ => 0) jobDup 0 projectDup).matching_keywords =
        (calcKeywordMatch jobDup projectDup).keywords ++
          (calcTechMatch jobDup projectDup).technologies
    ∧ (calcKeywordMatch jobDup projectDup).keywords.Nodup
    ∧ (calcTechMatch jobDup projectDup).technologies.Nodup :=
  C9_matching_keywords_concat (fun _ => 0) [projectDup] jobDup 5 _
    (List.mem_singleton.mpr rfl)

/-! ### C2: error handling of the primary backend -/

/-- C2 counterexample: with a raising primary backend and a fresh entry
under "k" in the fallback store, `get_cached_results` reports a miss
even though a direct fallback lookup would succeed, and `cache_results`
returns False without recording the entry in the fallback store — the
operation does not fall back on a primary error. -/
theorem C2_cex :
    (get_cached_results failingState 0 "k").1 = none
    ∧ (memoryGet failingState 0 "k").1 = some [serNil]
    ∧ (cache_results failingState 0 "k2" [resultNil] none).1 = false
    ∧ (cache_results failingState 0 "k2" [resultNil] none).2.memory =
        failingState.memory := by
  refine ⟨rfl, by decide, rfl, rfl⟩

/-- C2 (amended): every primary-backend error is caught rather than
propagated — a failing `get` returns None (a cache miss) and a failing
`put` returns False — but the failed operation does not touch the
fallback store: the cache state is returned entirely unchanged. -/
theorem C2_error_caught (s : CacheState) (now : Int) (key : String)
    (results : List MatchResult) (ttl : Option Int)
    (h : redisFailing s = true) :
    get_cached_results s now key = (none, s)
    ∧ cache_results s now key results ttl = (false, s) := by
  cases hs : s.redis with
  | none => simp [redisFailing, hs] at h
  | some r =>
    simp only [redisFailing, hs] at h
    constructor
    · unfold get_cached_results
      rw [hs]
      simp [h]
    · unfold cache_results
      rw [hs]
      simp [h]

/-- Witness for C2's amended statement at the concrete failing state. -/
theorem C2_error_caught_witness :
    get_cached_results failingState 0 "k" = (none, failingState)
    ∧ cache_results failingState 0 "k" [resultNil] none = (false, failingState) :=
  C2_error_caught failingState 0 "k" [resultNil] none rfl

/-! ### C3: TTL expiry (`ttl=0` slips through `ttl or default_ttl`) -/

/-- C3 (code bug): `cache_results(key, R, ttl=0)` stores the entry with
the *default* TTL, because `ttl = ttl or self.default_ttl` treats the
integer 0 as falsy; an immediate `get_cached_results` therefore returns
the entry instead of a miss.  The expiry machinery itself works: once
the (defaulted) TTL elapses the entry is reported absent and evicted
from the fallback store. -/
theorem C3_ttl_zero_bug :
    (cache_results memOnlyState 0 "k" [resultNil] (some 0)).1 = true
    ∧ ((cache_results memOnlyState 0 "k" [resultNil] (some 0)).2).memory =
        [("k", { data := [serializeResult 0 resultNil], expires_at := 3600 })]
    ∧ (get_cached_results ((cache_results memOnlyState 0 "k" [resultNil] (some 0)).2)
          0 "k").1 = some [serializeResult 0 resultNil]
    ∧ (get_cached_results ((cache_results memOnlyState 0 "k" [resultNil] (some 0)).2)
          5000 "k").1 = none
    ∧ ((get_cached_results ((cache_results memOnlyState 0 "k" [resultNil] (some 0)).2)
          5000 "k").2).memory = [] := by
  refine ⟨rfl, by decide, by decide, by decide, by decide⟩

/-! ### C8: per-user invalidation -/

theorem find?_filter_eq {α : Type} (p q : α → Bool) (l : List α)
    (h : ∀ x, p x = true → q x = true) :
    (l.filter q).find? p = l.find? p := by
  induction l with
  | nil => rfl
  | cons e es ih =>
    by_cases hp : p e = true
    · rw [List.filter_cons, h e hp]
      simp only [if_true]
      rw [List.find?_cons_of_pos _ hp, List.find?_cons_of_pos _ hp]
    · by_cases hq : q e = true
      · rw [List.filter_cons, hq]
        simp only [if_true]
        rw [List.find?_cons_of_neg _ hp, List.find?_cons_of_neg _ hp]
        exact ih
      · have hq' : q e = false := by
          revert hq
          cases q e <;> simp
        rw [List.filter_cons, hq']
        simp only [Bool.false_eq_true, if_false]
        rw [List.find?_cons_of_neg _ hp]
        exact ih

theorem redisLookup_filter_irrelevant (l : List REntry) (now : Int) (k pre : String)
    (hk : strStarts pre k = false) :
    redisLookup (l.filter (fun e => !(strStarts pre e.key))) now k =
      redisLookup l now k := by
  unfold redisLookup
  rw [find?_filter_eq (fun e => decide (e.key = k))
    (fun e => !(strStarts pre e.key)) l ?_]
  intro x hx
  show (!(strStarts pre x.key)) = true
  rw [show x.key = k from of_decide_eq_true hx, hk]
  rfl

theorem memLookup_filter_irrelevant (m : List (String × MemEntry)) (k pre : String)
    (hk : strStarts pre k = false) :
    memLookup (m.filter (fun kv => !(strStarts pre kv.1))) k = memLookup m k := by
  unfold memLookup
  rw [find?_filter_eq (fun kv => decide (kv.1 = k))
    (fun kv => !(strStarts pre kv.1)) m ?_]
  intro x hx
  show (!(strStarts pre x.1)) = true
  rw [show x.1 = k from of_decide_eq_true hx, hk]
  rfl

theorem memoryGet_fst_congr (s₁ s₂ : CacheState) (now : Int) (k : String)
    (h : memLookup s₁.memory k = memLookup s₂.memory k) :
    (memoryGet s₁ now k).1 = (memoryGet s₂ now k).1 := by
  unfold memoryGet
  rw [h]
  cases memLookup s₂.memory k with
  | none => rfl
  | some e =>
    by_cases ht : now < e.expires_at <;> simp [ht]

theorem globLoop_plain_star (fuel : Nat) (p s : List Char)
    (hp : ∀ c ∈ p, globSpecial c = false)
    (hf : p.length + s.length + 1 ≤ fuel) :
    globLoop fuel (p ++ ['*']) s = p.isPrefixOf s := by
  induction fuel generalizing p s with
  | zero => omega
  | succ f ih =>
    cases p with
    | nil =>
      simp only [List.nil_append, globLoop]
      simp [globStep, List.isPrefixOf]
    | cons a p' =>
      have ha := hp a (List.mem_cons_self a p')
      have ha1 : ¬(a = '*') := fun hh => by simp [globSpecial, hh] at ha
      have ha2 : ¬(a = '?') := fun hh => by simp [globSpecial, hh] at ha
      have ha3 : ¬(a = '[') := fun hh => by simp [globSpecial, hh] at ha
      have ha4 : ¬(a = '\\') := fun hh => by simp [globSpecial, hh] at ha
      cases s with
      | nil =>
        rw [List.cons_append]
        simp only [globLoop, globStep]
        rw [if_neg ha1, if_neg ha2, if_neg ha3, if_neg ha4]
        rfl
      | cons c t =>
        rw [List.cons_append]
        simp only [globLoop, globStep]
        rw [if_neg ha1, if_neg ha2, if_neg ha3, if_neg ha4]
        show (if a = c then globLoop f (p' ++ ['*']) t else false) =
          ((a == c) && p'.isPrefixOf t)
        have hfc : p'.length + t.length + 1 ≤ f := by
          simp only [List.length_cons] at hf
          omega
        by_cases hac : a = c
        · rw [if_pos hac, ih p' t (fun x hx => hp x (List.mem_cons_of_mem a hx)) hfc]
          simp [hac]
        · rw [if_neg hac]
          simp [hac]

theorem globMatch_plain_star (p s : List Char)
    (hp : ∀ c ∈ p, globSpecial c = false) :
    globMatch (p ++ ['*']) s = p.isPrefixOf s :=
  globLoop_plain_star _ p s hp (by simp [List.length_append])

theorem redisKeysMatch_plain_user (u key : String)
    (hu : ∀ c ∈ u.data, globSpecial c = false) :
    redisKeysMatch ("match:" ++ u ++ ":*") key =
      strStarts ("match:" ++ u ++ ":") key := by
  have hdata : ("match:" ++ u ++ ":*").data =
      ("match:" ++ u ++ ":").data ++ ['*'] := by
    have h1 : (":*" : String).data = (":" : String).data ++ ['*'] := by decide
    simp [String.data_append, h1]
  have hplain : ∀ c ∈ ("match:" ++ u ++ ":").data, globSpecial c = false := by
    intro c hc
    rw [String.data_append, String.data_append] at hc
    rcases List.mem_append.mp hc with hc1 | hc2
    · rcases List.mem_append.mp hc1 with hm | huc
      · exact (by decide : ∀ x ∈ ("match:" : String).data, globSpecial x = false) c hm
      · exact hu c huc
    · exact (by decide : ∀ x ∈ (":" : String).data, globSpecial x = false) c hc2
  unfold redisKeysMatch strStarts
  rw [hdata, globMatch_plain_star _ _ hplain]

/-- C8 counterexample: Redis `KEYS` matches `match:{u}:*` as a *glob*,
not as a literal prefix.  For the user id `u*` no cache key carries the
literal prefix `match:u*:` — the claim therefore predicts that nothing
is removed, the count is 0, and every entry remains retrievable — yet
the call deletes both users' Redis entries, returns 2, and the entry of
user u2 is no longer retrievable afterwards. -/
theorem C8_cex :
    (redisEntries invState).filter
        (fun e => strStarts ("match:" ++ "u*" ++ ":") e.key) = []
    ∧ invState.memory.filter
        (fun kv => strStarts ("match:" ++ "u*" ++ ":") kv.1) = []
    ∧ (invalidate_user_cache invState "u*").1 = 2
    ∧ redisEntries (invalidate_user_cache invState "u*").2 = []
    ∧ strStarts ("match:" ++ "u*" ++ ":") "match:u2:bbb:alg:1" = false
    ∧ (get_cached_results invState 0 "match:u2:bbb:alg:1").1 = some [serNil]
    ∧ (get_cached_results (invalidate_user_cache invState "u*").2 0
          "match:u2:bbb:alg:1").1 = none := by
  decide

/-- C8 (amended): for a user id free of glob metacharacters (`*`, `?`,
`[`, `\` — on such ids the Redis glob `match:{u}:*` selects exactly the
keys with literal prefix `match:{u}:`), and with a healthy (or absent)
primary backend, `invalidate_user_cache u` removes exactly the entries
whose key has the literal prefix `match:{u}:` from both the Redis
keyspace and the fallback store, returns the total number removed
(Redis deletions plus fallback deletions), and every entry whose key
lacks that prefix is left in place and remains retrievable afterwards.
For ids containing glob metacharacters the Redis deletion follows glob
semantics and can remove other users' entries (see the counterexample),
while the fallback store always uses the literal prefix. -/
theorem C8_invalidate_user (s : CacheState) (u : String) (h : redisOk s = true)
    (hu : ∀ c ∈ u.data, globSpecial c = false) :
    ((invalidate_user_cache s u).2).memory =
        s.memory.filter (fun kv => !(strStarts ("match:" ++ u ++ ":") kv.1))
    ∧ redisEntries (invalidate_user_cache s u).2 =
        (redisEntries s).filter (fun e => !(strStarts ("match:" ++ u ++ ":") e.key))
    ∧ (invalidate_user_cache s u).1 =
        (((redisEntries s).filter
            (fun e => strStarts ("match:" ++ u ++ ":") e.key)).length : Int)
          + ((s.memory.filter
              (fun kv => strStarts ("match:" ++ u ++ ":") kv.1)).length : Int)
    ∧ ∀ k, strStarts ("match:" ++ u ++ ":") k = false →
        ∀ now, (get_cached_results (invalidate_user_cache s u).2 now k).1 =
          (get_cached_results s now k).1 := by
  cases hs : s.redis with
  | none =>
    refine ⟨?_, ?_, ?_, ?_⟩
    · unfold invalidate_user_cache
      rw [hs]
    · unfold invalidate_user_cache redisEntries
      rw [hs]
      rfl
    · unfold invalidate_user_cache redisEntries
      rw [hs]
      simp
    · intro k hk now
      unfold get_cached_results invalidate_user_cache
      rw [hs]
      simp only []
      have hmem : memLookup ((s.memory.filter
          (fun kv => !(strStarts ("match:" ++ u ++ ":") kv.1)))) k =
          memLookup s.memory k :=
        memLookup_filter_irrelevant s.memory k _ hk
      exact memoryGet_fst_congr _ _ now k hmem
  | some r =>
    have hf : r.failing = false := by
      simp [redisOk, redisFailing, hs] at h
      exact h
    have hg : ∀ key : String, redisKeysMatch ("match:" ++ u ++ ":*") key =
        strStarts ("match:" ++ u ++ ":") key :=
      fun key => redisKeysMatch_plain_user u key hu
    refine ⟨?_, ?_, ?_, ?_⟩
    · unfold invalidate_user_cache
      rw [hs]
      simp [hf]
    · unfold invalidate_user_cache redisEntries
      rw [hs]
      simp [hf, hg]
    · unfold invalidate_user_cache redisEntries
      rw [hs]
      simp [hf, hg]
    · intro k hk now
      unfold invalidate_user_cache
      rw [hs]
      simp only [hf, hg]
      unfold get_cached_results
      rw [hs]
      simp only [Bool.false_eq_true, if_false, hf]
      rw [redisLookup_filter_irrelevant r.entries now k _ hk]
      cases redisLookup r.entries now k with
      | some v => rfl
      | none =>
        have hmem : memLookup ((s.memory.filter
            (fun kv => !(strStarts ("match:" ++ u ++ ":") kv.1)))) k =
            memLookup s.memory k :=
          memLookup_filter_irrelevant s.memory k _ hk
        exact memoryGet_fst_congr _ _ now k hmem

/-- Witness for C8's amended statement at a concrete two-user state: the
glob-free user id "u1" removes its Redis entry and its fallback entry
(count 2) and leaves u2's and the unrelated entry retrievable. -/
theorem C8_invalidate_user_witness :
    ((invalidate_user_cache invState "u1").2).memory =
        invState.memory.filter
          (fun kv => !(strStarts ("match:" ++ "u1" ++ ":") kv.1))
    ∧ redisEntries (invalidate_user_cache invState "u1").2 =
        (redisEntries invState).filter
          (fun e => !(strStarts ("match:" ++ "u1" ++ ":") e.key))
    ∧ (invalidate_user_cache invState "u1").1 =
        (((redisEntries invState).filter
            (fun e => strStarts ("match:" ++ "u1" ++ ":") e.key)).length : Int)
          + ((invState.memory.filter
              (fun kv => strStarts ("match:" ++ "u1" ++ ":") kv.1)).length : Int)
    ∧ ∀ k, strStarts ("match:" ++ "u1" ++ ":") k = false →
        ∀ now, (get_cached_results (invalidate_user_cache invState "u1").2 now k).1 =
          (get_cached_results invState now k).1 :=
  C8_invalidate_user invState "u1" rfl (by decide)

/-! ### C4: cache-key fingerprinting

Sanity anchors for the MD5 embedding against RFC 1321 / `hashlib`. -/

example : md5Hex (strBytes "") = "d41d8cd98f00b204e9800998ecf8427e" := by decide

example : md5Hex (strBytes "abc") = "900150983cd24fb0d6963f7d28e17f72" := by decide

example : job_json jobScenario =
    "\x7b\"category\": null, \"description\": \"Build APIs\", \"job_id\": \"job-1\", \"preferred_skills\": [\"Docker\"], \"required_skills\": [\"PostgreSQL\", \"Python\"], \"title\": \"Backend Engineer\"\x7d" := by
  decide

/-- C4 counterexample: the key is assembled by plain `:`-separated
concatenation, so two different (algorithm name, algorithm version)
pairs — a change to both the algorithm name and the version — can
produce the identical key for the same user and job: the claim that any
change to the algorithm name or version produces a different key is
false as stated. -/
theorem C4_cex :
    generate_cache_key "u" jobScenario "alg:x" "1" =
        generate_cache_key "u" jobScenario "alg" "x:1"
    ∧ ("alg:x", "1") ≠ (("alg", "x:1") : String × String) := by
  exact ⟨by decide, by decide⟩

/-- C4 (amended): `generate_cache_key` is deterministic and yields
`match:{user_id}:{job_hash}:{algorithm_name}:{algorithm_version}` with
`job_hash` the 12-character truncated MD5 hex digest of the canonical
job JSON; changing exactly one of the user, the algorithm name, or the
algorithm version (the other components held fixed) always produces a
different key; and a change to the job content produces a different key
exactly when the truncated digest of its canonical serialisation
differs (an MD5-truncation collision, or a simultaneous change of
several components, can collide — see the counterexample). -/
theorem C4_cache_key (u u' n n' v v' : String) (j j' : JobContext) :
    generate_cache_key u j n v =
        "match:" ++ u ++ ":" ++ job_hash j ++ ":" ++ n ++ ":" ++ v
    ∧ (u ≠ u' → generate_cache_key u j n v ≠ generate_cache_key u' j n v)
    ∧ (n ≠ n' → generate_cache_key u j n v ≠ generate_cache_key u j n' v)
    ∧ (v ≠ v' → generate_cache_key u j n v ≠ generate_cache_key u j n v')
    ∧ (job_hash j ≠ job_hash j' →
        generate_cache_key u j n v ≠ generate_cache_key u j' n v) := by
  refine ⟨rfl, ?_, ?_, ?_, ?_⟩
  · intro hne heq
    apply hne
    have h := congrArg String.data heq
    simp only [generate_cache_key, String.data_append, List.append_assoc] at h
    exact String.ext (List.append_cancel_right (List.append_cancel_left h))
  · intro hne heq
    apply hne
    have h := congrArg String.data heq
    simp only [generate_cache_key, String.data_append, List.append_assoc] at h
    have h1 := List.append_cancel_left h
    have h2 := List.append_cancel_left h1
    have h3 := List.append_cancel_left h2
    have h4 := List.append_cancel_left h3
    have h5 := List.append_cancel_left h4
    exact String.ext (List.append_cancel_right h5)
  · intro hne heq
    apply hne
    have h := congrArg String.data heq
    simp only [generate_cache_key, String.data_append, List.append_assoc] at h
    have h1 := List.append_cancel_left h
    have h2 := List.append_cancel_left h1
    have h3 := List.append_cancel_left h2
    have h4 := List.append_cancel_left h3
    have h5 := List.append_cancel_left h4
    have h6 := List.append_cancel_left h5
    have h7 := List.append_cancel_left h6
    exact String.ext h7
  · intro hne heq
    apply hne
    have h := congrArg String.data heq
    simp only [generate_cache_key, String.data_append, List.append_assoc] at h
    have h1 := List.append_cancel_left h
    have h2 := List.append_cancel_left h1
    have h3 := List.append_cancel_left h2
    exact String.ext (List.append_cancel_right h3)

/-- Witness for C4's amended statement: concrete single-component
changes each produce a different key, including a job whose description
change yields a different truncated digest. -/
theorem C4_cache_key_witness :
    generate_cache_key "a" jobScenario "alg" "1" ≠
        generate_cache_key "b" jobScenario "alg" "1"
    ∧ generate_cache_key "a" jobScenario "alg" "1" ≠
        generate_cache_key "a" jobScenario "alg2" "1"
    ∧ generate_cache_key "a" jobScenario "alg" "1" ≠
        generate_cache_key "a" jobScenario "alg" "2"
    ∧ generate_cache_key "a" jobScenario "alg" "1" ≠
        generate_cache_key "a" jobScenario2 "alg" "1" :=
  ⟨(C4_cache_key "a" "b" "alg" "alg" "1" "1" jobScenario jobScenario).2.1 (by decide),
   (C4_cache_key "a" "a" "alg" "alg2" "1" "1" jobScenario jobScenario).2.2.1 (by decide),
   (C4_cache_key "a" "a" "alg" "alg" "1" "2" jobScenario jobScenario).2.2.2.1 (by decide),
   (C4_cache_key "a" "a" "alg" "alg" "1" "1" jobScenario jobScenario2).2.2.2.2 (by decide)⟩

end ApplyBot
